import Mathlib

/-!
Verification of the dynamic-level compaction selector of the Hummock LSM store
(`src/meta/src/hummock/compaction/level_selector.rs`).

The sizing engine (`calculate_level_base_size`), the priority scorer
(`get_priority_levels`) and the four selector facades are embedded from the
Rust source.  The concrete pickers, the level-handler bookkeeping and the task
assembly helper live in files of the repository that are not part of this
source tree; where a definition depends on them it is either parameterised by
an abstract picker function or modelled from the specification (such
definitions carry a doc comment starting with `Modelled from the spec:`).

Machine integers (`u64`/`usize`) are embedded as `Nat`.  The two places where
the Rust code can leave the happy path are made explicit:

* `u64`/`usize` subtraction panics on underflow (debug builds) and is
  otherwise unspecified; it is embedded as `checkedSub : Nat → Nat → Option Nat`
  and threaded through `get_priority_levels`, so an underflowing run is `none`.
* `(x as f64 * m as f64) as u64` in the capacity fill loop rounds both
  operands and the product to 53 significant bits (round half to even) and
  saturates the final cast at `u64::MAX`; it is embedded exactly by
  `rnd53`/`f64CastMulU64` (all intermediate values are integers far below the
  f64 exponent limit, so rounding to 53 bits is the only effect).
-/

/-- `u64::MAX`. -/
def u64Max : Nat := 2 ^ 64 - 1

/-- `SCORE_BASE` from `level_selector.rs`. -/
def SCORE_BASE : Nat := 100

/-- Rounding of `n` at granularity `2 ^ e`, half to even: round the quotient
`n / 2 ^ e` up when the remainder is above half of `2 ^ e`, or at exactly half
when the quotient is odd. -/
def rnd53Aux (n e : Nat) : Nat :=
  if 2 ^ e < n % 2 ^ e * 2 ∨ (n % 2 ^ e * 2 = 2 ^ e ∧ n / 2 ^ e % 2 = 1) then
    (n / 2 ^ e + 1) * 2 ^ e
  else n / 2 ^ e * 2 ^ e

/-- Round a natural number to 53 significant bits, half to even: the exact
value of `n as f64` for `n` well below the f64 exponent limit, and likewise
the exact f64 product of two already-rounded integers. -/
def rnd53 (n : Nat) : Nat :=
  if n < 2 ^ 53 then n else rnd53Aux n (n.log2 - 52)

/-- `(x as f64 * m as f64) as u64` for `x m : u64`: both operands are rounded
to f64, the product is rounded to f64, and the cast back saturates at
`u64::MAX`. -/
def f64CastMulU64 (x m : Nat) : Nat :=
  min (rnd53 (rnd53 x * rnd53 m)) u64Max

/-- Checked machine-integer subtraction: Rust `a - b` on `u64`/`usize` panics
on underflow in debug builds and is treated as a non-result. -/
def checkedSub (a b : Nat) : Option Nat :=
  if b ≤ a then some (a - b) else none

/-- An SSTable file.  Only the fields the embedded functions read are kept
(`id`, `file_size`); key ranges, table ids and key statistics are consumed
solely by the pickers, which are outside this source tree. -/
structure SstableInfo where
  id : Nat
  file_size : Nat
deriving DecidableEq

/-- A level of the tree (also used for the sub-levels of L0).  `level_type`
and `sub_level_id` are not read by the embedded functions and are omitted. -/
structure Level where
  level_idx : Nat
  total_file_size : Nat
  table_infos : List SstableInfo
deriving DecidableEq

/-- The L0 container: an ordered sequence of sub-levels. -/
structure OverlappingLevel where
  sub_levels : List Level
  total_file_size : Nat
deriving DecidableEq

/-- The `Levels` snapshot: L0 plus the flat levels `1..=max_level`.  In the
protobuf schema `l0` is optional and `get_priority_levels` unwraps it; the
embedding requires it present. -/
structure Levels where
  levels : List Level
  l0 : OverlappingLevel
deriving DecidableEq

/-- The compaction config fields consulted by the embedded functions. -/
structure CompactionConfig where
  max_level : Nat
  max_bytes_for_level_base : Nat
  max_bytes_for_level_multiplier : Nat
  level0_tier_compact_file_number : Nat
  max_space_reclaim_bytes : Nat
deriving DecidableEq

/-- Modelled from the spec: `LevelHandler` (level_handler.rs is not under this
source tree).  Only the two read accessors used by the selector are modelled:
the count of files reserved at this level by pending tasks, and the pending
output bytes directed into each target level. -/
structure LevelHandler where
  pending_file_count : Nat
  pending_output : List (Nat × Nat)
deriving DecidableEq, Inhabited

/-- `LevelHandler::get_pending_file_count`. -/
def LevelHandler.get_pending_file_count (h : LevelHandler) : Nat :=
  h.pending_file_count

/-- `LevelHandler::get_pending_output_file_size(to_level)`: pending output
bytes directed into `to_level`. -/
def LevelHandler.get_pending_output_file_size (h : LevelHandler) (to_level : Nat) : Nat :=
  (h.pending_output.filter (fun p => p.1 == to_level)).foldl (fun acc p => acc + p.2) 0

/-- `SelectContext` from `level_selector.rs`. -/
structure SelectContext where
  level_max_bytes : List Nat
  base_level : Nat
  score_levels : List (Nat × Nat × Nat)
deriving DecidableEq

/-- Modelled from the spec: one input level of a `CompactionInput`. -/
structure InputLevel where
  level_idx : Nat
  table_infos : List SstableInfo
deriving DecidableEq

/-- Modelled from the spec: a candidate set produced by a picker. -/
structure CompactionInput where
  input_levels : List InputLevel
  target_level : Nat
deriving DecidableEq

/-- The task type tag. -/
inductive TaskType where
  | dynamic
  | manual
  | spaceReclaim
  | ttl
deriving DecidableEq

/-- Modelled from the spec: the output task.  `create_compaction_task` is not
under this source tree; the derived fields it fills (target file size,
compression algorithm, filter mask) are not inspected by any claim and are
omitted, keeping the input, the base level and the task type. -/
structure CompactionTask where
  input : CompactionInput
  base_level : Nat
  task_type : TaskType
deriving DecidableEq

/-- Modelled from the spec: task assembly (§4.5 of the spec). -/
def create_compaction_task (_config : CompactionConfig) (input : CompactionInput)
    (base_level : Nat) (task_type : TaskType) : CompactionTask :=
  { input := input, base_level := base_level, task_type := task_type }

/-! ## The sizing engine: `calculate_level_base_size` -/

/-- One step of the scan over the levels: record the index of the first
non-empty level and the running maximum of the total file sizes. -/
def scanStep (acc : Nat × Nat) (level : Level) : Nat × Nat :=
  (if 0 < level.total_file_size ∧ acc.1 = 0 then level.level_idx else acc.1,
   max acc.2 level.total_file_size)

/-- The scan of levels `1..=max_level` recording the first non-empty level
index and the largest total file size (the loop at the top of
`calculate_level_base_size`). -/
def scanLevels (ls : List Level) : Nat × Nat :=
  ls.foldl scanStep (0, 0)

/-- `k`-fold integer division by `m` (`cur_level_size /= multiplier` once per
level walked from `first_non_empty_level` toward `max_level`). -/
def divTimes (m : Nat) : Nat → Nat → Nat
  | x, 0 => x
  | x, k + 1 => divTimes m (x / m) k

/-- The `while ctx.base_level > 1 && cur_level_size > base_bytes_max` loop:
returns the final `(base_level, cur_level_size)`. -/
def shrinkBase (mult bmax : Nat) : Nat → Nat → Nat × Nat
  | 0, cur => (0, cur)
  | 1, cur => (1, cur)
  | n + 2, cur =>
    if bmax < cur then shrinkBase mult bmax (n + 1) (cur / mult)
    else (n + 2, cur)

/-- The fill loop `for i in ctx.base_level..=max_level`: writes
`max(level_size, base_bytes_max)` at index `i` and multiplies `level_size`
by the multiplier through f64. -/
def fillLmb (bmax mult : Nat) : Nat → Nat → Nat → List Nat → List Nat
  | _ls, _i, 0, lmb => lmb
  | ls, i, k + 1, lmb =>
    fillLmb bmax mult (f64CastMulU64 ls mult) (i + 1) k (lmb.set i (max ls bmax))

/-- `DynamicLevelSelectorCore::calculate_level_base_size`. -/
def calculate_level_base_size (config : CompactionConfig) (levels : Levels) :
    SelectContext :=
  let scan := scanLevels levels.levels
  let first_non_empty_level := scan.1
  let max_level_size := scan.2
  let lmb0 := List.replicate (config.max_level + 1) u64Max
  if max_level_size = 0 then
    { level_max_bytes := lmb0, base_level := config.max_level, score_levels := [] }
  else
    let base_bytes_max := config.max_bytes_for_level_base
    let base_bytes_min := base_bytes_max / config.max_bytes_for_level_multiplier
    let cur_level_size := divTimes config.max_bytes_for_level_multiplier max_level_size
      (config.max_level - first_non_empty_level)
    let p :=
      if cur_level_size ≤ base_bytes_min then
        (first_non_empty_level, base_bytes_min + 1)
      else
        let s := shrinkBase config.max_bytes_for_level_multiplier base_bytes_max
          first_non_empty_level cur_level_size
        (s.1, min base_bytes_max s.2)
    { level_max_bytes :=
        fillLmb base_bytes_max config.max_bytes_for_level_multiplier p.2 p.1
          (config.max_level + 1 - p.1) lmb0,
      base_level := p.1,
      score_levels := [] }

/-! ## The priority scorer: `get_priority_levels` -/

/-- Total number of files across the sub-levels of L0. -/
def totalL0FileCount (l0 : OverlappingLevel) : Nat :=
  (l0.sub_levels.map (fun level => level.table_infos.length)).sum

/-- Stable insertion of a scored candidate into a list sorted by descending
score: earlier candidates keep priority on ties, exactly as Rust's stable
`sort_by(|a, b| b.0.cmp(&a.0))`. -/
def insertDesc (x : Nat × Nat × Nat) : List (Nat × Nat × Nat) → List (Nat × Nat × Nat)
  | [] => [x]
  | y :: ys => if x.1 < y.1 then y :: insertDesc x ys else x :: y :: ys

/-- Stable sort by descending score (equal to any stable sort under the same
comparator, hence to Rust's `sort_by(|a, b| b.0.cmp(&a.0))`). -/
def sortDesc : List (Nat × Nat × Nat) → List (Nat × Nat × Nat)
  | [] => []
  | x :: xs => insertDesc x (sortDesc xs)

/-- The per-level scoring loop of `get_priority_levels` (the `for level in
&levels.levels` loop), with the machine subtraction checked. -/
def scoreLevels (config : CompactionConfig) (handlers : List LevelHandler)
    (base_level : Nat) (lmb : List Nat) :
    List Level → Option (List (Nat × Nat × Nat))
  | [] => some []
  | level :: rest =>
    if level.level_idx < base_level ∨ config.max_level ≤ level.level_idx then
      scoreLevels config handlers base_level lmb rest
    else
      let upper_level := if level.level_idx = base_level then 0 else level.level_idx - 1
      match checkedSub
          (level.total_file_size +
            (handlers.getD upper_level default).get_pending_output_file_size level.level_idx)
          ((handlers.getD level.level_idx default).get_pending_output_file_size
            (level.level_idx + 1)) with
      | none => none
      | some total_size =>
        if total_size = 0 then scoreLevels config handlers base_level lmb rest
        else
          match scoreLevels config handlers base_level lmb rest with
          | none => none
          | some out =>
            some ((total_size * SCORE_BASE / lmb.getD level.level_idx 0,
              level.level_idx, level.level_idx + 1) :: out)

/-- `DynamicLevelSelectorCore::get_priority_levels`.  Returns `none` when one
of the unchecked machine subtractions of the source would underflow. -/
def get_priority_levels (config : CompactionConfig) (levels : Levels)
    (handlers : List LevelHandler) : Option SelectContext :=
  let ctx := calculate_level_base_size config levels
  match checkedSub (totalL0FileCount levels.l0)
      (handlers.getD 0 default).get_pending_file_count with
  | none => none
  | some idle_file_count =>
    let max_l0_score := max (SCORE_BASE * 2)
      (levels.l0.sub_levels.length * SCORE_BASE / config.level0_tier_compact_file_number)
    match checkedSub levels.l0.total_file_size
        ((handlers.getD 0 default).get_pending_output_file_size ctx.base_level) with
    | none => none
    | some total_size =>
      let l0_scores :=
        if 0 < idle_file_count then
          [(min (idle_file_count * SCORE_BASE / config.level0_tier_compact_file_number)
              max_l0_score, 0, 0),
           (total_size * SCORE_BASE / config.max_bytes_for_level_base, 0, ctx.base_level)]
        else []
      match scoreLevels config handlers ctx.base_level ctx.level_max_bytes levels.levels with
      | none => none
      | some level_scores =>
        some { ctx with score_levels := sortDesc (l0_scores ++ level_scores) }

/-! ## The dynamic selector facade -/

/-- The type of an abstract (stateless) picker, as dispatched by
`create_compaction_picker`: arguments are select level, target level, the
snapshot and the handler array.  The concrete pickers are outside this source
tree; per the spec they read the handlers but mutate nothing. -/
def PickerFun : Type :=
  Nat → Nat → Levels → List LevelHandler → Option CompactionInput

/-- The type of an abstract `CompactionInput::add_pending_task` (level-handler
reservation), which is outside this source tree: task id, winning input, and
the handler array it updates. -/
def AddPendingFun : Type :=
  Nat → CompactionInput → List LevelHandler → List LevelHandler

/-- The candidate loop of `DynamicLevelSelector::pick_compaction`: iterate the
sorted candidates; return no task at the first score `≤ SCORE_BASE`; otherwise
ask the picker dictated by `(select, target)` and commit the first non-empty
input. -/
def DynamicLevelSelector.pickLoop (picker : PickerFun) (addPending : AddPendingFun)
    (config : CompactionConfig) (base_level task_id : Nat) (levels : Levels)
    (handlers : List LevelHandler) :
    List (Nat × Nat × Nat) → Option CompactionTask × List LevelHandler
  | [] => (none, handlers)
  | (score, select_level, target_level) :: rest =>
    if score ≤ SCORE_BASE then (none, handlers)
    else
      match picker select_level target_level levels handlers with
      | some input =>
        (some (create_compaction_task config input base_level TaskType.dynamic),
         addPending task_id input handlers)
      | none =>
        DynamicLevelSelector.pickLoop picker addPending config base_level task_id
          levels handlers rest

/-- `DynamicLevelSelector::pick_compaction`, parameterised by the abstract
picker and reservation functions.  The outer `Option` is `none` exactly when
`get_priority_levels` underflows; a defined run returns the optional task and
the resulting handler array. -/
def DynamicLevelSelector.pick_compaction (picker : PickerFun) (addPending : AddPendingFun)
    (config : CompactionConfig) (task_id : Nat) (levels : Levels)
    (handlers : List LevelHandler) :
    Option (Option CompactionTask × List LevelHandler) :=
  (get_priority_levels config levels handlers).map
    (fun ctx =>
      DynamicLevelSelector.pickLoop picker addPending config ctx.base_level task_id
        levels handlers ctx.score_levels)

/-! ## The manual selector facade -/

/-- Modelled from the spec: `ManualCompactionOption` (its definition is not
under this source tree).  Only the requested level is read by the selector
facade; the key range and explicit file list are consumed by the picker. -/
structure ManualCompactionOption where
  level : Nat
deriving DecidableEq

/-- The type of an abstract `ManualCompactionPicker` as a function of the
option and the target level it is constructed with. -/
def ManualPickerFun : Type :=
  ManualCompactionOption → Nat → Levels → List LevelHandler → Option CompactionInput

/-- `ManualCompactionSelector::pick_compaction`, parameterised by the abstract
picker and reservation functions. -/
def ManualCompactionSelector.pick_compaction (mpicker : ManualPickerFun)
    (addPending : AddPendingFun) (config : CompactionConfig)
    (option : ManualCompactionOption) (task_id : Nat) (levels : Levels)
    (handlers : List LevelHandler) : Option CompactionTask × List LevelHandler :=
  let ctx := calculate_level_base_size config levels
  let target_level :=
    if option.level = 0 then ctx.base_level
    else if option.level = config.max_level then option.level
    else option.level + 1
  if 0 < option.level ∧ option.level < ctx.base_level then (none, handlers)
  else
    match mpicker option target_level levels handlers with
    | none => (none, handlers)
    | some input =>
      (some (create_compaction_task config input ctx.base_level TaskType.manual),
       addPending task_id input handlers)

/-! ## The space-reclaim and TTL selector facades -/

/-- Modelled from the spec: the space-reclaim picker value held by the
selector; per spec §4.5 pickers hold no cross-tick state, so it carries only
its construction arguments. -/
structure SpaceReclaimCompactionPicker where
  max_space_reclaim_bytes : Nat
  all_table_ids : List Nat
deriving DecidableEq

/-- Modelled from the spec: the TTL-reclaim picker value held by the
selector. -/
structure TtlReclaimCompactionPicker where
  max_space_reclaim_bytes : Nat
deriving DecidableEq

/-- `SpaceReclaimCompactionSelector`: the dynamic core's config plus the
picker constructed from it. -/
structure SpaceReclaimCompactionSelector where
  config : CompactionConfig
  picker : SpaceReclaimCompactionPicker
deriving DecidableEq

/-- `TtlCompactionSelector`: the dynamic core's config plus the picker. -/
structure TtlCompactionSelector where
  config : CompactionConfig
  picker : TtlReclaimCompactionPicker
deriving DecidableEq

/-- The type of an abstract space-reclaim picker behaviour: a pure function of
the picker value, the snapshot and the handlers (stateless per spec §4.5). -/
def SpaceReclaimPickFun : Type :=
  SpaceReclaimCompactionPicker → Levels → List LevelHandler → Option CompactionInput

/-- The type of an abstract TTL picker behaviour. -/
def TtlPickFun : Type :=
  TtlReclaimCompactionPicker → Levels → List LevelHandler → Option CompactionInput

/-- `SpaceReclaimCompactionSelector::pick_compaction`: runs the sizing engine
for `base_level`, asks the held picker once, and assembles the task.  The
selector value is returned so ticks compose as a state machine; the source
mutates no selector field outside `try_update`. -/
def SpaceReclaimCompactionSelector.pick_compaction (srpick : SpaceReclaimPickFun)
    (addPending : AddPendingFun) (s : SpaceReclaimCompactionSelector) (task_id : Nat)
    (levels : Levels) (handlers : List LevelHandler) :
    Option CompactionTask × List LevelHandler × SpaceReclaimCompactionSelector :=
  let ctx := calculate_level_base_size s.config levels
  match srpick s.picker levels handlers with
  | none => (none, handlers, s)
  | some input =>
    (some (create_compaction_task s.config input ctx.base_level TaskType.spaceReclaim),
     addPending task_id input handlers, s)

/-- `TtlCompactionSelector::pick_compaction`, same shape. -/
def TtlCompactionSelector.pick_compaction (tpick : TtlPickFun)
    (addPending : AddPendingFun) (s : TtlCompactionSelector) (task_id : Nat)
    (levels : Levels) (handlers : List LevelHandler) :
    Option CompactionTask × List LevelHandler × TtlCompactionSelector :=
  let ctx := calculate_level_base_size s.config levels
  match tpick s.picker levels handlers with
  | none => (none, handlers, s)
  | some input =>
    (some (create_compaction_task s.config input ctx.base_level TaskType.ttl),
     addPending task_id input handlers, s)

/-- The empty snapshot for a config: empty L0 and levels `1..=max_level` with
no files. -/
def emptySnapshot (config : CompactionConfig) : Levels :=
  { levels := (List.range config.max_level).map
      (fun j => { level_idx := j + 1, total_file_size := 0, table_infos := [] }),
    l0 := { sub_levels := [], total_file_size := 0 } }

/-- The pair relation between aligned levels of two snapshots that agree
everywhere except possibly the data volume at level `i`. -/
def levelPairOk (i : Nat) (la lb : Level) : Prop :=
  la.level_idx = lb.level_idx ∧ la.table_infos = lb.table_infos ∧
  (la.level_idx ≠ i → la.total_file_size = lb.total_file_size) ∧
  (la.level_idx = i → la.total_file_size ≤ lb.total_file_size)

/-- Two snapshots identical except that the entries at level `i` may carry
more data in the second: same L0, levelwise equal indices and file lists,
equal sizes away from level `i` and size growing at level `i`. -/
def LevelsDifferOnlyAt (i : Nat) (a b : Levels) : Prop :=
  a.l0 = b.l0 ∧ List.Forall₂ (levelPairOk i) a.levels b.levels

/-- `k`-fold application of the f64 capacity multiplication, the successive
values taken by `level_size` in the fill loop. -/
def iterMul (mult : Nat) : Nat → Nat → Nat
  | ls, 0 => ls
  | ls, k + 1 => iterMul mult (f64CastMulU64 ls mult) k

/-- A picker that never finds an input, and a reservation function that
changes nothing: concrete instantiations of the abstract picker parameters. -/
def nonePicker : PickerFun := fun _ _ _ _ => none

/-- The identity reservation function. -/
def idAddPending : AddPendingFun := fun _ _ handlers => handlers

/-! ## Concrete inputs used by counterexamples and witnesses -/

/-- Scenario of C1: `max_level = 4`, base 100, multiplier 5. -/
def c1cfg : CompactionConfig := ⟨4, 100, 5, 2, 512⟩

/-- Scenario of C1: level sizes `[_, 0, 50, 250, 1200]`, empty L0. -/
def c1levels : Levels :=
  { levels := [⟨1, 0, []⟩, ⟨2, 50, [⟨1, 50⟩]⟩, ⟨3, 250, [⟨2, 250⟩]⟩, ⟨4, 1200, [⟨3, 1200⟩]⟩],
    l0 := ⟨[], 0⟩ }

/-- Five all-empty level handlers. -/
def emptyHandlers5 : List LevelHandler := List.replicate 5 default

/-- Config for the C3/C9 inputs: `max_level = 2`, base 100, multiplier 5. -/
def c3cfg : CompactionConfig := ⟨2, 100, 5, 2, 512⟩

/-- C3 counterexample snapshot: two files totalling 500 bytes in one L0
sub-level, all deeper levels empty. -/
def c3levels : Levels :=
  { levels := [⟨1, 0, []⟩, ⟨2, 0, []⟩],
    l0 := ⟨[⟨0, 500, [⟨7, 250⟩, ⟨8, 250⟩]⟩], 500⟩ }

/-- C3 counterexample handlers: both L0 files are pending, so the idle file
count is zero. -/
def c3handlers : List LevelHandler := [⟨2, []⟩, default, default]

/-- C3 witness snapshot: one idle 50-byte file in L0. -/
def c3wLevels : Levels :=
  { levels := [⟨1, 0, []⟩, ⟨2, 0, []⟩],
    l0 := ⟨[⟨0, 50, [⟨7, 50⟩]⟩], 50⟩ }

/-- Three all-empty level handlers. -/
def emptyHandlers3 : List LevelHandler := List.replicate 3 default

/-- Four all-empty level handlers. -/
def emptyHandlers4 : List LevelHandler := List.replicate 4 default

/-- C5 counterexample config: `max_level = 3`, base 100, multiplier 2. -/
def c5cfg : CompactionConfig := ⟨3, 100, 2, 2, 512⟩

/-- C5 counterexample, first snapshot: 203 bytes at level 2. -/
def c5s1 : Levels :=
  { levels := [⟨1, 0, []⟩, ⟨2, 203, [⟨21, 203⟩]⟩, ⟨3, 0, []⟩], l0 := ⟨[], 0⟩ }

/-- C5 counterexample, second snapshot: 204 bytes at level 2 (same file
list, one more byte of data volume). -/
def c5s2 : Levels :=
  { levels := [⟨1, 0, []⟩, ⟨2, 204, [⟨21, 203⟩]⟩, ⟨3, 0, []⟩], l0 := ⟨[], 0⟩ }

/-- C5 witness config: `max_level = 2`, base 100, multiplier 2. -/
def c5wcfg : CompactionConfig := ⟨2, 100, 2, 2, 512⟩

/-- C5 witness, first snapshot: 100 bytes at level 1. -/
def c5w1 : Levels :=
  { levels := [⟨1, 100, [⟨1, 100⟩]⟩, ⟨2, 0, []⟩], l0 := ⟨[], 0⟩ }

/-- C5 witness, second snapshot: 101 bytes at level 1 (same file list and
same sizing context). -/
def c5w2 : Levels :=
  { levels := [⟨1, 101, [⟨1, 100⟩]⟩, ⟨2, 0, []⟩], l0 := ⟨[], 0⟩ }

/-- C6 witness snapshot: only level 3 holds data, so `base_level = 3`. -/
def c6levels : Levels :=
  { levels := [⟨1, 0, []⟩, ⟨2, 0, []⟩, ⟨3, 30, [⟨1, 30⟩]⟩, ⟨4, 0, []⟩], l0 := ⟨[], 0⟩ }

/-- C6 witness option: requested level 1, inside the dead zone below the base
level. -/
def c6option : ManualCompactionOption := ⟨1⟩

/-- C9 snapshot: a single 10-byte file in L0. -/
def c9levels : Levels :=
  { levels := [⟨1, 0, []⟩, ⟨2, 0, []⟩],
    l0 := ⟨[⟨0, 10, [⟨7, 10⟩]⟩], 10⟩ }

/-- C9 handlers: handler 0 claims five pending files while L0 holds one,
the bookkeeping-lag state in which the idle-file subtraction underflows. -/
def c9handlers : List LevelHandler := [⟨5, []⟩, default, default]

/-! ## Arithmetic facts about the f64 rounding model -/

theorem rnd53Aux_lower (n e : Nat) : n / 2 ^ e * 2 ^ e ≤ rnd53Aux n e := by
  unfold rnd53Aux
  split
  · exact Nat.mul_le_mul_right _ (Nat.le_succ _)
  · exact le_rfl

theorem le_mul_rnd53 (n : Nat) : (2 ^ 52 - 1) * n ≤ 2 ^ 52 * rnd53 n := by
  unfold rnd53
  split
  · have epow : (2 : Nat) ^ 52 = 4503599627370496 := by norm_num
    rw [epow]
    omega
  · next h =>
    have h53 : 2 ^ 53 ≤ n := Nat.le_of_not_lt h
    have h0 : n ≠ 0 := by
      have : (0 : Nat) < 2 ^ 53 := by positivity
      omega
    have hlog : 53 ≤ n.log2 := (Nat.le_log2 h0).mpr h53
    have h52e : 52 + (n.log2 - 52) = n.log2 := by omega
    have hpow : 2 ^ 52 * 2 ^ (n.log2 - 52) ≤ n := by
      rw [← pow_add, h52e]
      exact (Nat.le_log2 h0).mp le_rfl
    have hEpos : 0 < 2 ^ (n.log2 - 52) := by positivity
    have hr : n % 2 ^ (n.log2 - 52) < 2 ^ (n.log2 - 52) := Nat.mod_lt _ hEpos
    have hdm : 2 ^ (n.log2 - 52) * (n / 2 ^ (n.log2 - 52)) + n % 2 ^ (n.log2 - 52) = n :=
      Nat.div_add_mod n (2 ^ (n.log2 - 52))
    have haux : 2 ^ (n.log2 - 52) * (n / 2 ^ (n.log2 - 52)) ≤ rnd53Aux n (n.log2 - 52) := by
      rw [mul_comm]
      exact rnd53Aux_lower n _
    have epow : (2 : Nat) ^ 52 = 4503599627370496 := by norm_num
    rw [epow] at hpow ⊢
    generalize 2 ^ (n.log2 - 52) * (n / 2 ^ (n.log2 - 52)) = QE at hdm haux
    generalize n % 2 ^ (n.log2 - 52) = r at hr hdm
    generalize (2 : Nat) ^ (n.log2 - 52) = E at hr hpow
    generalize rnd53Aux n (n.log2 - 52) = R at haux
    omega

theorem two_le_rnd53 {m : Nat} (hm : 2 ≤ m) : 2 ≤ rnd53 m := by
  unfold rnd53
  split
  · exact hm
  · next h =>
    have h53 : 2 ^ 53 ≤ m := Nat.le_of_not_lt h
    have h0 : m ≠ 0 := by
      have : (0 : Nat) < 2 ^ 53 := by positivity
      omega
    have hlog : 53 ≤ m.log2 := (Nat.le_log2 h0).mpr h53
    have h52e : 52 + (m.log2 - 52) = m.log2 := by omega
    have hpow : 2 ^ 52 * 2 ^ (m.log2 - 52) ≤ m := by
      rw [← pow_add, h52e]
      exact (Nat.le_log2 h0).mp le_rfl
    have hEpos : 0 < 2 ^ (m.log2 - 52) := by positivity
    have hr : m % 2 ^ (m.log2 - 52) < 2 ^ (m.log2 - 52) := Nat.mod_lt _ hEpos
    have hdm : 2 ^ (m.log2 - 52) * (m / 2 ^ (m.log2 - 52)) + m % 2 ^ (m.log2 - 52) = m :=
      Nat.div_add_mod m (2 ^ (m.log2 - 52))
    have haux : 2 ^ (m.log2 - 52) * (m / 2 ^ (m.log2 - 52)) ≤ rnd53Aux m (m.log2 - 52) := by
      rw [mul_comm]
      exact rnd53Aux_lower m _
    have epow : (2 : Nat) ^ 52 = 4503599627370496 := by norm_num
    rw [epow] at hpow
    generalize 2 ^ (m.log2 - 52) * (m / 2 ^ (m.log2 - 52)) = QE at hdm haux
    generalize m % 2 ^ (m.log2 - 52) = r at hr hdm
    generalize (2 : Nat) ^ (m.log2 - 52) = E at hr hpow hEpos
    generalize rnd53Aux m (m.log2 - 52) = R at haux ⊢
    omega

theorem le_rnd53_mul {m : Nat} (hm : 2 ≤ m) (x : Nat) :
    x ≤ rnd53 (rnd53 x * rnd53 m) := by
  have ha := le_mul_rnd53 x
  have hb := two_le_rnd53 hm
  have hP := le_mul_rnd53 (rnd53 x * rnd53 m)
  have h2a : 2 * rnd53 x ≤ rnd53 x * rnd53 m := by
    rw [mul_comm]
    exact Nat.mul_le_mul_left _ hb
  have epow : (2 : Nat) ^ 52 = 4503599627370496 := by norm_num
  rw [epow] at ha hP
  generalize rnd53 (rnd53 x * rnd53 m) = R at hP ⊢
  generalize rnd53 x * rnd53 m = P at hP h2a
  generalize rnd53 x = a at ha h2a
  omega

theorem le_f64CastMulU64 {m : Nat} (hm : 2 ≤ m) {x : Nat} (hx : x ≤ u64Max) :
    x ≤ f64CastMulU64 x m :=
  le_min (le_rnd53_mul hm x) hx

theorem f64CastMulU64_le (x m : Nat) : f64CastMulU64 x m ≤ u64Max :=
  min_le_right _ _

theorem iterMul_le {mult ls : Nat} (hls : ls ≤ u64Max) (k : Nat) :
    iterMul mult ls k ≤ u64Max := by
  induction k generalizing ls with
  | zero => exact hls
  | succ k ih => exact ih (f64CastMulU64_le ls mult)

theorem iterMul_succ (mult ls k : Nat) :
    iterMul mult ls (k + 1) = f64CastMulU64 (iterMul mult ls k) mult := by
  induction k generalizing ls with
  | zero => rfl
  | succ k ih => exact ih (f64CastMulU64 ls mult)

theorem iterMul_mono_step {mult ls : Nat} (hm : 2 ≤ mult) (hls : ls ≤ u64Max) (k : Nat) :
    iterMul mult ls k ≤ iterMul mult ls (k + 1) := by
  rw [iterMul_succ]
  exact le_f64CastMulU64 hm (iterMul_le hls k)

/-! ## Facts about the scan and the fill loop -/

theorem foldl_scanStep_max_mono : ∀ (ls : List Level) (acc : Nat × Nat),
    acc.2 ≤ (List.foldl scanStep acc ls).2 := by
  intro ls
  induction ls with
  | nil => intro acc; exact le_rfl
  | cons l t ih =>
    intro acc
    exact le_trans (le_max_left _ _) (ih (scanStep acc l))

theorem scanLevels_max_ge_mem {ls : List Level} {l : Level} (hl : l ∈ ls) :
    l.total_file_size ≤ (scanLevels ls).2 := by
  have general : ∀ (t : List Level) (acc : Nat × Nat), l ∈ t →
      l.total_file_size ≤ (List.foldl scanStep acc t).2 := by
    intro t
    induction t with
    | nil => intro acc hmem; cases hmem
    | cons hd tl ih =>
      intro acc hmem
      rcases List.mem_cons.mp hmem with rfl | hmem
      · exact le_trans (le_max_right _ _) (foldl_scanStep_max_mono tl (scanStep acc l))
      · exact ih _ hmem
  exact general ls (0, 0) hl

theorem foldl_scanStep_zero : ∀ (ls : List Level) (acc : Nat × Nat),
    (∀ l ∈ ls, l.total_file_size = 0) → List.foldl scanStep acc ls = acc := by
  intro ls
  induction ls with
  | nil => intro acc _; rfl
  | cons hd tl ih =>
    intro acc hz
    have hhd : hd.total_file_size = 0 := hz hd (List.mem_cons_self _ _)
    have hstep : scanStep acc hd = acc := by
      unfold scanStep
      rw [hhd]
      simp
    rw [List.foldl_cons, hstep]
    exact ih acc (fun l hl => hz l (List.mem_cons_of_mem _ hl))

theorem fillLmb_length (bmax mult : Nat) : ∀ (cnt ls i : Nat) (lmb : List Nat),
    (fillLmb bmax mult ls i cnt lmb).length = lmb.length := by
  intro cnt
  induction cnt with
  | zero => intro ls i lmb; rfl
  | succ k ih =>
    intro ls i lmb
    show (fillLmb bmax mult (f64CastMulU64 ls mult) (i + 1) k
      (lmb.set i (max ls bmax))).length = lmb.length
    rw [ih, List.length_set]

theorem fillLmb_getElem?_lt (bmax mult : Nat) : ∀ (cnt ls i : Nat) (lmb : List Nat)
    {j : Nat}, j < i → (fillLmb bmax mult ls i cnt lmb)[j]? = lmb[j]? := by
  intro cnt
  induction cnt with
  | zero => intro ls i lmb j _; rfl
  | succ k ih =>
    intro ls i lmb j hj
    show (fillLmb bmax mult (f64CastMulU64 ls mult) (i + 1) k
      (lmb.set i (max ls bmax)))[j]? = lmb[j]?
    rw [ih _ _ _ (Nat.lt_succ_of_lt hj), List.getElem?_set_ne (by omega)]

theorem fillLmb_getElem?_ge (bmax mult : Nat) : ∀ (cnt ls i : Nat) (lmb : List Nat)
    {j : Nat}, i + cnt ≤ j → (fillLmb bmax mult ls i cnt lmb)[j]? = lmb[j]? := by
  intro cnt
  induction cnt with
  | zero => intro ls i lmb j _; rfl
  | succ k ih =>
    intro ls i lmb j hj
    show (fillLmb bmax mult (f64CastMulU64 ls mult) (i + 1) k
      (lmb.set i (max ls bmax)))[j]? = lmb[j]?
    rw [ih _ _ _ (by omega), List.getElem?_set_ne (by omega)]

theorem fillLmb_getElem?_in (bmax mult : Nat) : ∀ (cnt ls i : Nat) (lmb : List Nat)
    {k : Nat}, k < cnt → i + cnt ≤ lmb.length →
    (fillLmb bmax mult ls i cnt lmb)[i + k]? = some (max (iterMul mult ls k) bmax) := by
  intro cnt
  induction cnt with
  | zero => intro ls i lmb k hk _; omega
  | succ c ih =>
    intro ls i lmb k hk hlen
    show (fillLmb bmax mult (f64CastMulU64 ls mult) (i + 1) c
      (lmb.set i (max ls bmax)))[i + k]? = some (max (iterMul mult ls k) bmax)
    cases k with
    | zero =>
      rw [fillLmb_getElem?_lt bmax mult c _ _ _ (by omega)]
      show (lmb.set i (max ls bmax))[i]? = some (max ls bmax)
      exact List.getElem?_set_self (by omega)
    | succ k' =>
      have harith : i + (k' + 1) = (i + 1) + k' := by omega
      rw [harith, ih _ _ _ (by omega) (by rw [List.length_set]; omega)]
      rfl

/-! ## Shape of `calculate_level_base_size` -/

theorem calculate_empty (config : CompactionConfig) (levels : Levels)
    (h : (scanLevels levels.levels).2 = 0) :
    calculate_level_base_size config levels =
      { level_max_bytes := List.replicate (config.max_level + 1) u64Max,
        base_level := config.max_level, score_levels := [] } := by
  simp only [calculate_level_base_size]
  rw [if_pos h]

theorem calculate_nonempty (config : CompactionConfig) (levels : Levels)
    (h : ¬ (scanLevels levels.levels).2 = 0) :
    ∃ bl bls,
      calculate_level_base_size config levels =
        { level_max_bytes := fillLmb config.max_bytes_for_level_base
            config.max_bytes_for_level_multiplier bls bl (config.max_level + 1 - bl)
            (List.replicate (config.max_level + 1) u64Max),
          base_level := bl, score_levels := [] } ∧
      (2 ≤ config.max_bytes_for_level_multiplier →
        config.max_bytes_for_level_base ≤ u64Max → bls ≤ u64Max) := by
  simp only [calculate_level_base_size]
  rw [if_neg h]
  split
  · refine ⟨(scanLevels levels.levels).1,
      config.max_bytes_for_level_base / config.max_bytes_for_level_multiplier + 1, rfl, ?_⟩
    intro hmult hbase
    have h1 : config.max_bytes_for_level_base / config.max_bytes_for_level_multiplier ≤
        config.max_bytes_for_level_base / 2 :=
      Nat.div_le_div_left hmult (by norm_num)
    have h2 : config.max_bytes_for_level_base / 2 ≤ u64Max / 2 :=
      Nat.div_le_div_right hbase
    have hval : u64Max = 18446744073709551615 := by norm_num [u64Max]
    rw [hval] at h2 ⊢
    omega
  · refine ⟨_, _, rfl, ?_⟩
    intro _ hbase
    exact le_trans (min_le_left _ _) hbase

/-- C2: for every snapshot and every config with multiplier at least 2 (and
base within the u64 range), the sizing context is monotone above the base
level and every capacity entry is at least `max_bytes_for_level_base`. -/
theorem c2_capacity_shape (config : CompactionConfig) (levels : Levels)
    (hmult : 2 ≤ config.max_bytes_for_level_multiplier)
    (hbase : config.max_bytes_for_level_base ≤ u64Max) :
    (∀ i, (calculate_level_base_size config levels).base_level ≤ i →
      i < config.max_level →
      (calculate_level_base_size config levels).level_max_bytes.getD i 0 ≤
        (calculate_level_base_size config levels).level_max_bytes.getD (i + 1) 0) ∧
    (∀ i, i < (calculate_level_base_size config levels).level_max_bytes.length →
      config.max_bytes_for_level_base ≤
        (calculate_level_base_size config levels).level_max_bytes.getD i 0) := by
  by_cases hz : (scanLevels levels.levels).2 = 0
  · rw [calculate_empty config levels hz]
    constructor
    · intro i hbl hlt
      dsimp only at hbl
      omega
    · intro i hlen
      dsimp only at hlen ⊢
      rw [List.length_replicate] at hlen
      rw [List.getD_eq_getElem?_getD, List.getElem?_replicate, if_pos hlen]
      exact hbase
  · obtain ⟨bl, bls, heq, hbls⟩ := calculate_nonempty config levels hz
    have hbls' : bls ≤ u64Max := hbls hmult hbase
    rw [heq]
    constructor
    · intro i hbl hlt
      dsimp only at hbl ⊢
      obtain ⟨k, rfl⟩ : ∃ k, i = bl + k := ⟨i - bl, by omega⟩
      rw [List.getD_eq_getElem?_getD, List.getD_eq_getElem?_getD]
      rw [fillLmb_getElem?_in _ _ _ _ _ _ (by omega)
        (by rw [List.length_replicate]; omega)]
      have harith : bl + k + 1 = bl + (k + 1) := rfl
      rw [harith, fillLmb_getElem?_in _ _ _ _ _ _ (by omega)
        (by rw [List.length_replicate]; omega)]
      simp only [Option.getD_some]
      exact max_le_max (iterMul_mono_step hmult hbls' k) le_rfl
    · intro i hlen
      dsimp only at hlen ⊢
      rw [fillLmb_length, List.length_replicate] at hlen
      rw [List.getD_eq_getElem?_getD]
      by_cases hlo : i < bl
      · rw [fillLmb_getElem?_lt _ _ _ _ _ _ hlo, List.getElem?_replicate, if_pos hlen]
        exact hbase
      · by_cases hhi : bl + (config.max_level + 1 - bl) ≤ i
        · rw [fillLmb_getElem?_ge _ _ _ _ _ _ hhi, List.getElem?_replicate, if_pos hlen]
          exact hbase
        · obtain ⟨k, rfl⟩ : ∃ k, i = bl + k := ⟨i - bl, by omega⟩
          rw [fillLmb_getElem?_in _ _ _ _ _ _ (by omega)
            (by rw [List.length_replicate]; omega)]
          exact le_max_right _ _

/-- Witness for C2 at the concrete stable-pyramid input. -/
theorem c2_capacity_shape_witness :
    2 ≤ c1cfg.max_bytes_for_level_multiplier ∧
    (calculate_level_base_size c1cfg c1levels).level_max_bytes.getD 3 0 ≤
      (calculate_level_base_size c1cfg c1levels).level_max_bytes.getD 4 0 ∧
    c1cfg.max_bytes_for_level_base ≤
      (calculate_level_base_size c1cfg c1levels).level_max_bytes.getD 2 0 :=
  ⟨by decide,
   (c2_capacity_shape c1cfg c1levels (by decide) (by decide)).1 3 (by decide) (by decide),
   (c2_capacity_shape c1cfg c1levels (by decide) (by decide)).2 2 (by decide)⟩

/-- C10: in the sizing context, every index strictly below the computed base
level keeps the initial `u64::MAX` sentinel: only levels from `base_level`
through `max_level` are assigned finite capacity targets. -/
theorem c10_below_base_untouched (config : CompactionConfig) (levels : Levels)
    (_hne : ∃ l ∈ levels.levels, 0 < l.total_file_size) :
    ∀ j, j < (calculate_level_base_size config levels).base_level →
      j < (calculate_level_base_size config levels).level_max_bytes.length →
      (calculate_level_base_size config levels).level_max_bytes.getD j 0 = u64Max := by
  by_cases hz : (scanLevels levels.levels).2 = 0
  · rw [calculate_empty config levels hz]
    intro j _ hlen
    dsimp only at hlen ⊢
    rw [List.length_replicate] at hlen
    rw [List.getD_eq_getElem?_getD, List.getElem?_replicate, if_pos hlen]
    rfl
  · obtain ⟨bl, bls, heq, _⟩ := calculate_nonempty config levels hz
    rw [heq]
    intro j hj hlen
    dsimp only at hj hlen ⊢
    rw [fillLmb_length, List.length_replicate] at hlen
    rw [List.getD_eq_getElem?_getD, fillLmb_getElem?_lt _ _ _ _ _ _ hj,
      List.getElem?_replicate, if_pos hlen]
    rfl

/-- Witness for C10 at the concrete stable-pyramid input (base level 2). -/
theorem c10_below_base_untouched_witness :
    (∃ l ∈ c1levels.levels, 0 < l.total_file_size) ∧
    (calculate_level_base_size c1cfg c1levels).level_max_bytes.getD 1 0 = u64Max :=
  ⟨⟨⟨2, 50, [⟨1, 50⟩]⟩, by decide, by decide⟩,
   c10_below_base_untouched c1cfg c1levels
     ⟨⟨2, 50, [⟨1, 50⟩]⟩, by decide, by decide⟩ 1 (by decide) (by decide)⟩

/-! ## Facts about the scorer -/

theorem mem_insertDesc {x a : Nat × Nat × Nat} :
    ∀ {l : List (Nat × Nat × Nat)}, a ∈ insertDesc x l ↔ a = x ∨ a ∈ l := by
  intro l
  induction l with
  | nil => simp [insertDesc]
  | cons y ys ih =>
    unfold insertDesc
    split
    · rw [List.mem_cons, ih, List.mem_cons]
      tauto
    · rw [List.mem_cons, List.mem_cons]

theorem mem_sortDesc {a : Nat × Nat × Nat} :
    ∀ {l : List (Nat × Nat × Nat)}, a ∈ sortDesc l ↔ a ∈ l := by
  intro l
  induction l with
  | nil => exact Iff.rfl
  | cons x xs ih =>
    unfold sortDesc
    rw [mem_insertDesc, ih, List.mem_cons]

theorem checkedSub_some_le {a b r : Nat} (h : checkedSub a b = some r) :
    b ≤ a ∧ r = a - b := by
  unfold checkedSub at h
  split at h
  · exact ⟨by assumption, (Option.some.inj h).symm⟩
  · cases h

theorem get_priority_levels_some {config : CompactionConfig} {levels : Levels}
    {handlers : List LevelHandler} {ctx : SelectContext}
    (h : get_priority_levels config levels handlers = some ctx) :
    ∃ idle total lvls,
      checkedSub (totalL0FileCount levels.l0)
        (handlers.getD 0 default).get_pending_file_count = some idle ∧
      checkedSub levels.l0.total_file_size
        ((handlers.getD 0 default).get_pending_output_file_size
          (calculate_level_base_size config levels).base_level) = some total ∧
      scoreLevels config handlers (calculate_level_base_size config levels).base_level
        (calculate_level_base_size config levels).level_max_bytes levels.levels =
        some lvls ∧
      ctx = { calculate_level_base_size config levels with
        score_levels := sortDesc
          ((if 0 < idle then
              [(min (idle * SCORE_BASE / config.level0_tier_compact_file_number)
                  (max (SCORE_BASE * 2)
                    (levels.l0.sub_levels.length * SCORE_BASE /
                      config.level0_tier_compact_file_number)), 0, 0),
               (total * SCORE_BASE / config.max_bytes_for_level_base, 0,
                 (calculate_level_base_size config levels).base_level)]
            else []) ++ lvls) } := by
  simp only [get_priority_levels] at h
  split at h
  · cases h
  · next idle hidle =>
    split at h
    · cases h
    · next total htotal =>
      split at h
      · cases h
      · next lvls hlvls =>
        exact ⟨idle, total, lvls, hidle, htotal, hlvls, (Option.some.inj h).symm⟩

theorem scoreLevels_base_max (config : CompactionConfig) (handlers : List LevelHandler)
    (lmb : List Nat) : ∀ ls : List Level,
    scoreLevels config handlers config.max_level lmb ls = some [] := by
  intro ls
  induction ls with
  | nil => rfl
  | cons l t ih =>
    unfold scoreLevels
    rw [if_pos (Nat.lt_or_ge l.level_idx config.max_level)]
    exact ih

/-- C7: when the priority scorer is defined and every scored candidate is
strictly below `SCORE_BASE`, `pick_compaction` returns no task and leaves the
handler array exactly as it was (no reservation or pending-output change). -/
theorem c7_below_score_base (picker : PickerFun) (addPending : AddPendingFun)
    (config : CompactionConfig) (task_id : Nat) (levels : Levels)
    (handlers : List LevelHandler) (ctx : SelectContext)
    (hsome : get_priority_levels config levels handlers = some ctx)
    (hlow : ∀ c ∈ ctx.score_levels, c.1 < SCORE_BASE) :
    DynamicLevelSelector.pick_compaction picker addPending config task_id levels
      handlers = some (none, handlers) := by
  unfold DynamicLevelSelector.pick_compaction
  rw [hsome, Option.map_some']
  refine congrArg some ?_
  cases hsl : ctx.score_levels with
  | nil => rfl
  | cons hd tl =>
    obtain ⟨s, sl, tgt⟩ := hd
    have hs : s < SCORE_BASE := hlow (s, sl, tgt) (by rw [hsl]; exact List.mem_cons_self _ _)
    unfold DynamicLevelSelector.pickLoop
    rw [if_pos (le_of_lt hs)]

/-- Witness for C7: the stable pyramid, scaled so both level scores are below
`SCORE_BASE` would not hold at `c1levels`; use the empty snapshot where the
candidate list is empty and the hypothesis is vacuous. -/
theorem c7_below_score_base_witness :
    DynamicLevelSelector.pick_compaction nonePicker idAddPending c3cfg 3
      (emptySnapshot c3cfg) emptyHandlers3 = some (none, emptyHandlers3) :=
  c7_below_score_base nonePicker idAddPending c3cfg 3 (emptySnapshot c3cfg)
    emptyHandlers3
    { level_max_bytes := [u64Max, u64Max, u64Max], base_level := 2, score_levels := [] }
    (by decide) (by decide)

/-- C8: on the empty snapshot with reservation-free handlers, the sizing
engine returns `base_level = max_level` with every capacity entry `u64::MAX`,
and `pick_compaction` returns no task (the tier-file-number hypothesis rules
out the division by zero that would already panic in the source).  In the
embedding `some (none, handlers)` is a defined run producing no task and
leaving the handlers untouched. -/
theorem c8_empty_tree (config : CompactionConfig) (handlers : List LevelHandler)
    (_htier : 0 < config.level0_tier_compact_file_number)
    (hempty : ∀ h ∈ handlers, h = (default : LevelHandler)) :
    calculate_level_base_size config (emptySnapshot config) =
      { level_max_bytes := List.replicate (config.max_level + 1) u64Max,
        base_level := config.max_level, score_levels := [] } ∧
    ∀ (picker : PickerFun) (addPending : AddPendingFun) (task_id : Nat),
      DynamicLevelSelector.pick_compaction picker addPending config task_id
        (emptySnapshot config) handlers = some (none, handlers) := by
  have hz : (scanLevels (emptySnapshot config).levels).2 = 0 := by
    have hfold : List.foldl scanStep (0, 0) (emptySnapshot config).levels = (0, 0) :=
      foldl_scanStep_zero _ _ (by
        intro l hl
        simp only [emptySnapshot, List.mem_map] at hl
        obtain ⟨j, _, rfl⟩ := hl
        rfl)
    unfold scanLevels
    rw [hfold]
  have hcalc := calculate_empty config (emptySnapshot config) hz
  refine ⟨hcalc, ?_⟩
  intro picker addPending task_id
  have h0 : handlers.getD 0 default = (default : LevelHandler) := by
    cases handlers with
    | nil => rfl
    | cons h t => exact hempty h (List.mem_cons_self _ _)
  have hscore : scoreLevels config handlers config.max_level
      (List.replicate (config.max_level + 1) u64Max) (emptySnapshot config).levels =
      some [] := scoreLevels_base_max config handlers _ _
  have hprio : get_priority_levels config (emptySnapshot config) handlers =
      some { level_max_bytes := List.replicate (config.max_level + 1) u64Max,
             base_level := config.max_level, score_levels := [] } := by
    simp only [get_priority_levels]
    rw [hcalc, h0]
    have hcount : totalL0FileCount (emptySnapshot config).l0 = 0 := rfl
    rw [hcount]
    have hsub0 : checkedSub 0 (LevelHandler.get_pending_file_count default) = some 0 := rfl
    rw [hsub0]
    have hsize0 : (emptySnapshot config).l0.total_file_size = 0 := rfl
    rw [hsize0]
    have hsub1 : checkedSub 0
        (LevelHandler.get_pending_output_file_size default config.max_level) = some 0 := rfl
    rw [hsub1]
    rw [hscore]
    rfl
  unfold DynamicLevelSelector.pick_compaction
  rw [hprio, Option.map_some']
  rfl

/-- Witness for C8 at the concrete config `max_level = 4`, base 100,
multiplier 5, tier file number 2. -/
theorem c8_empty_tree_witness :
    calculate_level_base_size c1cfg (emptySnapshot c1cfg) =
      { level_max_bytes := List.replicate 5 u64Max,
        base_level := 4, score_levels := [] } ∧
    DynamicLevelSelector.pick_compaction nonePicker idAddPending c1cfg 9
      (emptySnapshot c1cfg) emptyHandlers5 = some (none, emptyHandlers5) := by
  have h := c8_empty_tree c1cfg emptyHandlers5 (by decide)
    (by intro h hmem; simp only [emptyHandlers5, List.mem_replicate] at hmem; exact hmem.2)
  exact ⟨h.1, h.2 nonePicker idAddPending 9⟩

/-- C1 (counterexample): at the stable-pyramid input (levels `[_, 0, 50, 250,
1200]`, base 100, multiplier 5) the sizing engine gives
`level_max_bytes[3] = 240`, not the claimed 500: the targets are derived from
the largest level size 1200, not from pure powers of the multiplier. -/
theorem c1_counterexample :
    (calculate_level_base_size c1cfg c1levels).base_level = 2 ∧
    (calculate_level_base_size c1cfg c1levels).level_max_bytes.getD 3 0 = 240 ∧
    (calculate_level_base_size c1cfg c1levels).level_max_bytes.getD 3 0 ≠ 500 := by
  decide

/-- C1 (amended): at the stable-pyramid input the sizing engine returns
`base_level = 2` with `level_max_bytes[2] = 100`, `[3] = 240`, `[4] = 1200`;
level 3 then scores `104 > SCORE_BASE` so a picker is consulted, and
`pick_compaction` returns no task exactly when every consulted picker yields
no input. -/
theorem c1_amended :
    (calculate_level_base_size c1cfg c1levels).base_level = 2 ∧
    (calculate_level_base_size c1cfg c1levels).level_max_bytes.getD 2 0 = 100 ∧
    (calculate_level_base_size c1cfg c1levels).level_max_bytes.getD 3 0 = 240 ∧
    (calculate_level_base_size c1cfg c1levels).level_max_bytes.getD 4 0 = 1200 ∧
    (get_priority_levels c1cfg c1levels emptyHandlers5).map SelectContext.score_levels =
      some [(104, 3, 4), (50, 2, 3)] ∧
    ∀ (picker : PickerFun) (addPending : AddPendingFun) (task_id : Nat),
      (∀ sl tl lv hs, picker sl tl lv hs = none) →
      DynamicLevelSelector.pick_compaction picker addPending c1cfg task_id c1levels
        emptyHandlers5 = some (none, emptyHandlers5) := by
  refine ⟨by decide, by decide, by decide, by decide, by decide, ?_⟩
  intro picker addPending task_id hnone
  have hg : get_priority_levels c1cfg c1levels emptyHandlers5 =
      some { level_max_bytes := [u64Max, u64Max, 100, 240, 1200], base_level := 2,
             score_levels := [(104, 3, 4), (50, 2, 3)] } := by decide
  unfold DynamicLevelSelector.pick_compaction
  rw [hg, Option.map_some']
  refine congrArg some ?_
  show DynamicLevelSelector.pickLoop picker addPending c1cfg 2 task_id c1levels
    emptyHandlers5 [(104, 3, 4), (50, 2, 3)] = (none, emptyHandlers5)
  unfold DynamicLevelSelector.pickLoop
  rw [if_neg (by decide), hnone]
  unfold DynamicLevelSelector.pickLoop
  rw [if_pos (by decide)]

/-- Witness for C1's amended statement: with a picker that never finds an
input, the tick on the stable pyramid produces no task and keeps the
handlers. -/
theorem c1_amended_witness :
    DynamicLevelSelector.pick_compaction nonePicker idAddPending c1cfg 1 c1levels
      emptyHandlers5 = some (none, emptyHandlers5) :=
  c1_amended.2.2.2.2.2 nonePicker idAddPending 1 (fun _ _ _ _ => rfl)

/-- C3 (counterexample): with a non-empty L0 (two files, 500 bytes) whose
files are all pending (idle file count 0), the scorer emits no candidate at
all — in particular no L0-to-base candidate — refuting the claim that the
candidate is emitted regardless of the idle L0 file count. -/
theorem c3_counterexample :
    0 < c3levels.l0.total_file_size ∧
    0 < totalL0FileCount c3levels.l0 ∧
    (get_priority_levels c3cfg c3levels c3handlers).map SelectContext.score_levels =
      some [] := by
  decide

/-- C3 (amended): whenever the idle L0 file count is positive (and the two L0
subtractions are defined), the scorer emits the L0-to-base candidate
`(effective_L0_size * SCORE_BASE / max_bytes_for_level_base, 0, base_level)`,
where the effective size is the total L0 size minus handler 0's pending
output directed to the base level. -/
theorem c3_amended (config : CompactionConfig) (levels : Levels)
    (handlers : List LevelHandler) (ctx : SelectContext) (idle eff : Nat)
    (hprio : get_priority_levels config levels handlers = some ctx)
    (hidle : checkedSub (totalL0FileCount levels.l0)
      (handlers.getD 0 default).get_pending_file_count = some idle)
    (hpos : 0 < idle)
    (heff : checkedSub levels.l0.total_file_size
      ((handlers.getD 0 default).get_pending_output_file_size
        (calculate_level_base_size config levels).base_level) = some eff) :
    (eff * SCORE_BASE / config.max_bytes_for_level_base, 0, ctx.base_level) ∈
      ctx.score_levels := by
  obtain ⟨idle', eff', lvls, hidle', heff', hlvls, hctx⟩ := get_priority_levels_some hprio
  obtain rfl : idle' = idle := Option.some.inj (hidle'.symm.trans hidle)
  obtain rfl : eff' = eff := Option.some.inj (heff'.symm.trans heff)
  subst hctx
  dsimp only
  rw [mem_sortDesc, if_pos hpos]
  exact List.mem_append_left _ (List.mem_cons_of_mem _ (List.mem_cons_self _ _))

/-- Witness for C3's amended statement: one idle 50-byte L0 file, empty
handlers, base level 2; the candidate `(50, 0, 2)` is emitted. -/
theorem c3_amended_witness :
    ((50 : Nat) * SCORE_BASE / c3cfg.max_bytes_for_level_base, 0,
      (({ level_max_bytes := [u64Max, u64Max, u64Max], base_level := 2,
          score_levels := [(50, 0, 0), (50, 0, 2)] } : SelectContext)).base_level) ∈
      (({ level_max_bytes := [u64Max, u64Max, u64Max], base_level := 2,
          score_levels := [(50, 0, 0), (50, 0, 2)] } : SelectContext)).score_levels :=
  c3_amended c3cfg c3wLevels emptyHandlers3
    { level_max_bytes := [u64Max, u64Max, u64Max], base_level := 2,
      score_levels := [(50, 0, 0), (50, 0, 2)] } 1 50
    (by decide) (by decide) (by decide) (by decide)

/-- C9: a handler state in which handler 0's pending file count exceeds the
total L0 file count makes the idle-file subtraction underflow:
`get_priority_levels` has no defined result there, so `pick_compaction` is
not total over such inputs regardless of the pickers. -/
theorem c9_underflow :
    totalL0FileCount c9levels.l0 < (c9handlers.getD 0 default).get_pending_file_count ∧
    get_priority_levels c3cfg c9levels c9handlers = none ∧
    ∀ (picker : PickerFun) (addPending : AddPendingFun) (task_id : Nat),
      DynamicLevelSelector.pick_compaction picker addPending c3cfg task_id c9levels
        c9handlers = none := by
  refine ⟨by decide, by decide, ?_⟩
  intro picker addPending task_id
  unfold DynamicLevelSelector.pick_compaction
  rw [show get_priority_levels c3cfg c9levels c9handlers = none from by decide]
  rfl

/-- C6: the manual selector returns no task whenever the requested level is
strictly between 0 and the computed base level; otherwise it runs the manual
picker at target level `base_level` for a level-0 request, at the same level
for a `max_level` request, and at `level + 1` in all other cases, assembling
a manual task from whatever that picker returns. -/
theorem c6_manual_target (mpicker : ManualPickerFun) (addPending : AddPendingFun)
    (config : CompactionConfig) (opt : ManualCompactionOption) (task_id : Nat)
    (levels : Levels) (handlers : List LevelHandler) :
    (0 < opt.level ∧ opt.level < (calculate_level_base_size config levels).base_level →
      ManualCompactionSelector.pick_compaction mpicker addPending config opt task_id
        levels handlers = (none, handlers)) ∧
    (¬ (0 < opt.level ∧ opt.level < (calculate_level_base_size config levels).base_level) →
      ManualCompactionSelector.pick_compaction mpicker addPending config opt task_id
        levels handlers =
        match mpicker opt
            (if opt.level = 0 then (calculate_level_base_size config levels).base_level
             else if opt.level = config.max_level then opt.level
             else opt.level + 1) levels handlers with
        | none => (none, handlers)
        | some input =>
          (some (create_compaction_task config input
            (calculate_level_base_size config levels).base_level TaskType.manual),
           addPending task_id input handlers)) := by
  constructor
  · intro hdead
    simp only [ManualCompactionSelector.pick_compaction]
    rw [if_pos hdead]
  · intro hlive
    simp only [ManualCompactionSelector.pick_compaction]
    rw [if_neg hlive]

/-- Witness for C6: requested level 1 with computed base level 3 is in the
dead zone, so the manual selector returns no task. -/
theorem c6_manual_target_witness :
    ManualCompactionSelector.pick_compaction (fun _ _ _ _ => none) idAddPending c1cfg
      c6option 1 c6levels emptyHandlers5 = (none, emptyHandlers5) :=
  (c6_manual_target (fun _ _ _ _ => none) idAddPending c1cfg c6option 1 c6levels
    emptyHandlers5).1 (by decide)

/-- C4: each selector's tick is a pure function of the task id, the snapshot,
the handler array and the selector's configuration state; with the pickers
stateless (as the spec prescribes), the space-reclaim and TTL selectors
return their state unchanged, a repeated tick from that state reproduces the
first tick exactly, and the dynamic and manual ticks are deterministic in
their inputs. -/
theorem c4_determinism :
    (∀ (srpick : SpaceReclaimPickFun) (addPending : AddPendingFun)
        (s : SpaceReclaimCompactionSelector) (task_id : Nat) (levels : Levels)
        (handlers : List LevelHandler),
      (SpaceReclaimCompactionSelector.pick_compaction srpick addPending s task_id
        levels handlers).2.2 = s ∧
      SpaceReclaimCompactionSelector.pick_compaction srpick addPending
        (SpaceReclaimCompactionSelector.pick_compaction srpick addPending s task_id
          levels handlers).2.2 task_id levels handlers =
        SpaceReclaimCompactionSelector.pick_compaction srpick addPending s task_id
          levels handlers) ∧
    (∀ (tpick : TtlPickFun) (addPending : AddPendingFun)
        (s : TtlCompactionSelector) (task_id : Nat) (levels : Levels)
        (handlers : List LevelHandler),
      (TtlCompactionSelector.pick_compaction tpick addPending s task_id
        levels handlers).2.2 = s ∧
      TtlCompactionSelector.pick_compaction tpick addPending
        (TtlCompactionSelector.pick_compaction tpick addPending s task_id
          levels handlers).2.2 task_id levels handlers =
        TtlCompactionSelector.pick_compaction tpick addPending s task_id
          levels handlers) ∧
    (∀ (picker : PickerFun) (addPending : AddPendingFun) (config : CompactionConfig)
        (task_id : Nat) (levels : Levels) (handlers : List LevelHandler),
      DynamicLevelSelector.pick_compaction picker addPending config task_id levels
        handlers =
      DynamicLevelSelector.pick_compaction picker addPending config task_id levels
        handlers) ∧
    (∀ (mpicker : ManualPickerFun) (addPending : AddPendingFun)
        (config : CompactionConfig) (opt : ManualCompactionOption) (task_id : Nat)
        (levels : Levels) (handlers : List LevelHandler),
      ManualCompactionSelector.pick_compaction mpicker addPending config opt task_id
        levels handlers =
      ManualCompactionSelector.pick_compaction mpicker addPending config opt task_id
        levels handlers) := by
  refine ⟨?_, ?_, fun _ _ _ _ _ _ => rfl, fun _ _ _ _ _ _ _ => rfl⟩
  · intro srpick addPending s task_id levels handlers
    have hstate : (SpaceReclaimCompactionSelector.pick_compaction srpick addPending s
        task_id levels handlers).2.2 = s := by
      simp only [SpaceReclaimCompactionSelector.pick_compaction]
      split <;> rfl
    exact ⟨hstate, by rw [hstate]⟩
  · intro tpick addPending s task_id levels handlers
    have hstate : (TtlCompactionSelector.pick_compaction tpick addPending s
        task_id levels handlers).2.2 = s := by
      simp only [TtlCompactionSelector.pick_compaction]
      split <;> rfl
    exact ⟨hstate, by rw [hstate]⟩

/-! ## Score monotonicity machinery (C5) -/

theorem forall₂_levelPairOk_map_idx {i : Nat} :
    ∀ {ls1 ls2 : List Level}, List.Forall₂ (levelPairOk i) ls1 ls2 →
      ls1.map Level.level_idx = ls2.map Level.level_idx := by
  intro ls1 ls2 h
  induction h with
  | nil => rfl
  | cons hpair _ ih =>
    rw [List.map_cons, List.map_cons, ih, hpair.1]

theorem scoreLevels_select_mem (config : CompactionConfig) (handlers : List LevelHandler)
    (base_level : Nat) (lmb : List Nat) :
    ∀ (ls : List Level) {out : List (Nat × Nat × Nat)} {s sel t : Nat},
      scoreLevels config handlers base_level lmb ls = some out →
      (s, sel, t) ∈ out → sel ∈ ls.map Level.level_idx := by
  intro ls
  induction ls with
  | nil =>
    intro out s sel t hout hmem
    obtain rfl : ([] : List (Nat × Nat × Nat)) = out := Option.some.inj hout
    cases hmem
  | cons l rest ih =>
    intro out s sel t hout hmem
    simp only [scoreLevels] at hout
    rw [List.map_cons]
    split at hout
    · exact List.mem_cons_of_mem _ (ih hout hmem)
    · split at hout
      · cases hout
      · next total htotal =>
        split at hout
        · exact List.mem_cons_of_mem _ (ih hout hmem)
        · split at hout
          · cases hout
          · next out' hout' =>
            obtain rfl := Option.some.inj hout
            rcases List.mem_cons.mp hmem with heq | hmem'
            · have hsel : sel = l.level_idx := congrArg (fun p => p.2.1) heq
              rw [hsel]
              exact List.mem_cons_self _ _
            · exact List.mem_cons_of_mem _ (ih hout' hmem')

theorem scoreLevels_mono (config : CompactionConfig) (handlers : List LevelHandler)
    (base_level : Nat) (lmb : List Nat) {i : Nat} :
    ∀ {ls1 ls2 : List Level}, List.Forall₂ (levelPairOk i) ls1 ls2 →
    ∀ {out1 out2 : List (Nat × Nat × Nat)},
      (ls1.map Level.level_idx).Nodup →
      scoreLevels config handlers base_level lmb ls1 = some out1 →
      scoreLevels config handlers base_level lmb ls2 = some out2 →
      ∀ {s1 s2 t : Nat}, (s1, i, t) ∈ out1 → (s2, i, t) ∈ out2 → s1 ≤ s2 := by
  intro ls1 ls2 hfa
  induction hfa with
  | nil =>
    intro out1 out2 _ h1 _ s1 s2 t hm1 _
    obtain rfl : ([] : List (Nat × Nat × Nat)) = out1 := Option.some.inj h1
    cases hm1
  | cons hpair htail ih =>
    rename_i la lb t1 t2
    intro out1 out2 hnd h1 h2 s1 s2 t hm1 hm2
    obtain ⟨hidx, -, hne, hle⟩ := hpair
    simp only [scoreLevels] at h1 h2
    rw [← hidx] at h2
    split at h1
    · next hcond =>
      rw [if_pos hcond] at h2
      exact ih (List.nodup_cons.mp hnd).2 h1 h2 hm1 hm2
    · next hcond =>
      rw [if_neg hcond] at h2
      split at h1
      · cases h1
      · next totalA hsubA =>
        split at h2
        · cases h2
        · next totalB hsubB =>
          obtain ⟨hbA, hrA⟩ := checkedSub_some_le hsubA
          obtain ⟨hbB, hrB⟩ := checkedSub_some_le hsubB
          have hsz : la.total_file_size ≤ lb.total_file_size := by
            by_cases hli : la.level_idx = i
            · exact hle hli
            · exact le_of_eq (hne hli)
          have hrel : totalA ≤ totalB := by omega
          split at h1
          · next hA0 =>
            split at h2
            · next hB0 =>
              exact ih (List.nodup_cons.mp hnd).2 h1 h2 hm1 hm2
            · next hB0 =>
              exfalso
              have hlaidx : la.level_idx = i := by
                by_contra hli
                have heq := hne hli
                omega
              have hmem : i ∈ t1.map Level.level_idx :=
                scoreLevels_select_mem config handlers base_level lmb t1 h1 hm1
              have hnotin : la.level_idx ∉ t1.map Level.level_idx :=
                (List.nodup_cons.mp hnd).1
              rw [hlaidx] at hnotin
              exact hnotin hmem
          · next hA0 =>
            have hB0 : ¬ totalB = 0 := by omega
            rw [if_neg hB0] at h2
            split at h1
            · cases h1
            · next outA' houtA' =>
              split at h2
              · cases h2
              · next outB' houtB' =>
                obtain rfl := Option.some.inj h1
                obtain rfl := Option.some.inj h2
                rcases List.mem_cons.mp hm1 with heqA | hmA'
                · have hsel : i = la.level_idx := congrArg (fun p => p.2.1) heqA
                  have hs1 : s1 = totalA * SCORE_BASE / lmb.getD la.level_idx 0 :=
                    congrArg (fun p => p.1) heqA
                  rcases List.mem_cons.mp hm2 with heqB | hmB'
                  · have hs2 : s2 = totalB * SCORE_BASE / lmb.getD la.level_idx 0 :=
                      congrArg (fun p => p.1) heqB
                    rw [hs1, hs2]
                    exact Nat.div_le_div_right (Nat.mul_le_mul_right _ hrel)
                  · exfalso
                    have hmem : i ∈ t2.map Level.level_idx :=
                      scoreLevels_select_mem config handlers base_level lmb t2 houtB' hmB'
                    rw [← forall₂_levelPairOk_map_idx htail] at hmem
                    have hnotin : la.level_idx ∉ t1.map Level.level_idx :=
                      (List.nodup_cons.mp hnd).1
                    rw [← hsel] at hnotin
                    exact hnotin hmem
                · have hlaidx : la.level_idx ≠ i := by
                    intro hli
                    have hmem : i ∈ t1.map Level.level_idx :=
                      scoreLevels_select_mem config handlers base_level lmb t1 houtA' hmA'
                    have hnotin : la.level_idx ∉ t1.map Level.level_idx :=
                      (List.nodup_cons.mp hnd).1
                    rw [hli] at hnotin
                    exact hnotin hmem
                  rcases List.mem_cons.mp hm2 with heqB | hmB'
                  · exact absurd (congrArg (fun p => p.2.1) heqB).symm hlaidx
                  · exact ih (List.nodup_cons.mp hnd).2 houtA' houtB' hmA' hmB'

/-- C5 (counterexample): the snapshots with level sizes `[0, 203, 0]` and
`[0, 204, 0]` (`max_level = 3`, base 100, multiplier 2) differ only in level
2's data volume, yet the level-2 candidate scores 203 in the first and only
200 in the second: adding data shifted the sizing context
(`level_max_bytes[2]` grew from 100 to 102), so the score dropped. -/
theorem c5_counterexample :
    LevelsDifferOnlyAt 2 c5s1 c5s2 ∧
    c5s1.levels.map Level.total_file_size = [0, 203, 0] ∧
    c5s2.levels.map Level.total_file_size = [0, 204, 0] ∧
    (get_priority_levels c5cfg c5s1 emptyHandlers4).map SelectContext.score_levels =
      some [(203, 2, 3)] ∧
    (get_priority_levels c5cfg c5s2 emptyHandlers4).map SelectContext.score_levels =
      some [(200, 2, 3)] ∧
    (200 : Nat) < 203 := by
  refine ⟨⟨rfl, ?_⟩, by decide, by decide, by decide, by decide, by decide⟩
  exact List.Forall₂.cons ⟨rfl, rfl, fun _ => rfl, fun _ => le_rfl⟩
    (List.Forall₂.cons ⟨rfl, rfl, fun h => absurd rfl h, fun _ => by decide⟩
      (List.Forall₂.cons ⟨rfl, rfl, fun _ => rfl, fun _ => le_rfl⟩ List.Forall₂.nil))

/-- C5 (amended): for two snapshots that differ only in level `i`'s data
volume (`i ≥ 1`, distinct level indices) *and* produce the same sizing
context (same `base_level` and `level_max_bytes`), the score of the candidate
with select level `i` on the larger snapshot is at least the score on the
smaller one. -/
theorem c5_amended (config : CompactionConfig) (handlers : List LevelHandler)
    (i : Nat) (hi : 1 ≤ i) (S1 S2 : Levels)
    (hdiff : LevelsDifferOnlyAt i S1 S2)
    (hsize : calculate_level_base_size config S1 = calculate_level_base_size config S2)
    (hnodup : (S1.levels.map Level.level_idx).Nodup)
    (ctx1 ctx2 : SelectContext)
    (h1 : get_priority_levels config S1 handlers = some ctx1)
    (h2 : get_priority_levels config S2 handlers = some ctx2)
    (s1 s2 t : Nat)
    (hm1 : (s1, i, t) ∈ ctx1.score_levels)
    (hm2 : (s2, i, t) ∈ ctx2.score_levels) :
    s1 ≤ s2 := by
  obtain ⟨idle1, eff1, lvls1, -, -, hlvls1, hctx1⟩ := get_priority_levels_some h1
  obtain ⟨idle2, eff2, lvls2, -, -, hlvls2, hctx2⟩ := get_priority_levels_some h2
  subst hctx1 hctx2
  dsimp only at hm1 hm2
  rw [mem_sortDesc] at hm1 hm2
  have hin1 : (s1, i, t) ∈ lvls1 := by
    rcases List.mem_append.mp hm1 with hA | hB
    · exfalso
      by_cases hidle : 0 < idle1
      · rw [if_pos hidle] at hA
        rcases List.mem_cons.mp hA with he | hA'
        · have h0 : i = 0 := congrArg (fun p => p.2.1) he
          omega
        · rcases List.mem_cons.mp hA' with he | hA''
          · have h0 : i = 0 := congrArg (fun p => p.2.1) he
            omega
          · cases hA''
      · rw [if_neg hidle] at hA
        cases hA
    · exact hB
  have hin2 : (s2, i, t) ∈ lvls2 := by
    rcases List.mem_append.mp hm2 with hA | hB
    · exfalso
      by_cases hidle : 0 < idle2
      · rw [if_pos hidle] at hA
        rcases List.mem_cons.mp hA with he | hA'
        · have h0 : i = 0 := congrArg (fun p => p.2.1) he
          omega
        · rcases List.mem_cons.mp hA' with he | hA''
          · have h0 : i = 0 := congrArg (fun p => p.2.1) he
            omega
          · cases hA''
      · rw [if_neg hidle] at hA
        cases hA
    · exact hB
  rw [← hsize] at hlvls2
  exact scoreLevels_mono config handlers _ _ hdiff.2 hnodup hlvls1 hlvls2 hin1 hin2

/-- Witness for C5's amended statement: sizes 100 and 101 at level 1 under
`max_level = 2`, base 100, multiplier 2 give the same sizing context and
level-1 scores 100 and 101. -/
theorem c5_amended_witness : (100 : Nat) ≤ 101 :=
  c5_amended c5wcfg emptyHandlers3 1 (by decide) c5w1 c5w2
    ⟨rfl, List.Forall₂.cons ⟨rfl, rfl, fun h => absurd rfl h, fun _ => by decide⟩
      (List.Forall₂.cons ⟨rfl, rfl, fun _ => rfl, fun _ => le_rfl⟩ List.Forall₂.nil)⟩
    (by decide) (by decide)
    ⟨[u64Max, 100, 102], 1, [(100, 1, 2)]⟩ ⟨[u64Max, 100, 102], 1, [(101, 1, 2)]⟩
    (by decide) (by decide) 100 101 2 (by decide) (by decide)
